import Mathlib

/-!
# Verification of the pomerium authorization evaluator

A shallow embedding of `authorize/evaluator/evaluator.go` (and the parts of
`authorize/evaluator/config.go` it relies on).  Pure Go functions become Lean
functions; the Go pattern of returning a value and an error becomes `Except String α`; the
external capabilities that the evaluator package merely invokes (the rego
engine, certificate chain validation, cryptographic key handling, base64
decoding, the headers evaluator) are universally-quantified function
parameters, so every theorem below holds for all behaviours of those
collaborators.
-/

namespace Pomerium

/-- Reason codes from the `pkg/policy/criteria` package (declared outside this
package; the orchestration code only mentions the first three). -/
inductive Reason where
  | userUnauthenticated
  | pomeriumRoute
  | routeNotFound
  | invalidClientCertificate
  | other (s : String)
deriving DecidableEq, Repr

/-- Embedding of `RuleResult`: a boolean verdict plus ordered reason codes. -/
structure RuleResult where
  value : Bool := false
  reasons : List Reason := []
deriving DecidableEq, Repr

/-- Constructor `NewRuleResult`: a rule result from a value and reasons. -/
def NewRuleResult (value : Bool) (reasons : List Reason) : RuleResult :=
  { value := value, reasons := reasons }

/-- A per-predicate evaluation trace record (`contextutil.PolicyEvaluationTrace`). -/
structure PolicyEvaluationTrace where
  id : String := ""
deriving DecidableEq, Repr

/-- Embedding of `ClientCertificateInfo`: the certificate presented by the client, unvalidated. -/
structure ClientCertificateInfo where
  presented : Bool := false
  leaf : String := ""
  intermediates : String := ""
deriving DecidableEq, Repr

/-- Additional client-certificate constraints; opaque to the orchestration
code, which only threads them to the validation capability. -/
def ClientCertConstraints := Unit
deriving DecidableEq

/-- Embedding of `RequestHTTP`: the HTTP facts of a request.  The Go header
map `map[string]string` is embedded as an association list (first binding
wins on lookup). -/
structure RequestHTTP where
  method : String := ""
  hostname : String := ""
  path : String := ""
  url : String := ""
  headers : List (String × String) := []
  clientCertificate : ClientCertificateInfo := {}
  ip : String := ""
deriving DecidableEq, Repr

/-- Embedding of `RequestSession`: the session field of a request. -/
structure RequestSession where
  id : String := ""
deriving DecidableEq, Repr

/-- Embedding of `config.Policy`, restricted to what `evaluator.go` consumes: the
route-specific downstream client-CA override, and the result of the
deterministic `RouteID()` method (which may fail). -/
structure Policy where
  tlsDownstreamClientCA : String := ""
  routeID : Except String Nat

/-- Embedding of `Request`: the inputs needed for evaluation. -/
structure Request where
  isInternal : Bool := false
  policy : Option Policy := none
  http : RequestHTTP := {}
  session : RequestSession := {}

/-- Embedding of `http.Header` as an ordered list of key/value pairs; `Add`
appends a value for a key. -/
def Header := List (String × String)
deriving DecidableEq, Repr

/-- Embedding of `http.Header.Add`: append a key/value pair. -/
def Header.add (h : Header) (k v : String) : Header :=
  List.append h [(k, v)]

/-- Embedding of `Result`: the result of evaluation. -/
structure Result where
  allow : RuleResult := {}
  deny : RuleResult := {}
  headers : Header := []
  traces : List PolicyEvaluationTrace := []
deriving DecidableEq, Repr

/-- The input passed to a per-route `PolicyEvaluator` (`PolicyRequest`). -/
structure PolicyRequest where
  http : RequestHTTP := {}
  session : RequestSession := {}
  isValidClientCertificate : Bool := false
deriving DecidableEq, Repr

/-- The output of a per-route `PolicyEvaluator` (`PolicyResponse`); unset
fields keep their Go zero values. -/
structure PolicyResponse where
  allow : RuleResult := {}
  deny : RuleResult := {}
  traces : List PolicyEvaluationTrace := []
deriving DecidableEq, Repr

/-- The input to the `HeadersEvaluator` (`HeadersRequest`): the route policy,
HTTP facts and the session reference. -/
structure HeadersRequest where
  policy : Option Policy := none
  http : RequestHTTP := {}
  session : RequestSession := {}

/-- Embedding of `NewHeadersRequestFromPolicy` (declared in the headers evaluator file of
the same package, outside src): packages the policy and HTTP facts. -/
def NewHeadersRequestFromPolicy (policy : Option Policy) (http : RequestHTTP) :
    HeadersRequest :=
  { policy := policy, http := http }

/-- The output of the `HeadersEvaluator` (`HeadersResponse`): the computed
identity headers. -/
structure HeadersResponse where
  headers : Header := []
deriving DecidableEq, Repr

/-- The type of a compiled per-route policy evaluation capability
(`PolicyEvaluator.Evaluate`). -/
def PolicyEvalFn := PolicyRequest → Except String PolicyResponse

/-- Embedding of `Evaluator`: the orchestrator.  The per-route rule engines, the headers
evaluator, and the global certificate material from the configuration. -/
structure Evaluator where
  policyEvaluators : List (Nat × PolicyEvalFn)
  headersEvaluator : HeadersRequest → Except String HeadersResponse
  clientCA : String := ""
  clientCRL : String := ""
  clientCertConstraints : ClientCertConstraints := ()

/-- Go map lookup over the association-list embedding of
`map[uint64]*PolicyEvaluator`. -/
def findPolicyEvaluator (l : List (Nat × PolicyEvalFn)) (id : Nat) :
    Option PolicyEvalFn :=
  (l.find? (fun kv => kv.1 = id)).map (fun kv => kv.2)

/-- External pure capabilities invoked by `evaluator.go` but defined outside
src: standard-library base64 decoding and the certificate-chain
validation function. -/
structure Capabilities where
  base64Decode : String → Except String String
  isValidClientCertificate :
    String → String → ClientCertificateInfo → ClientCertConstraints →
      Except String Bool

/-- Embedding of `getClientCA`: the route-specific downstream client-CA override
(base64-decoded) takes precedence over the global default. -/
def getClientCA (c : Capabilities) (e : Evaluator) (policy : Option Policy) :
    Except String String :=
  match policy with
  | some p =>
    if p.tlsDownstreamClientCA ≠ "" then c.base64Decode p.tlsDownstreamClientCA
    else Except.ok e.clientCA
  | none => Except.ok e.clientCA

/-- Embedding of `evaluateInternal`: decisions for internal (`/.pomerium/...`) routes.
The WebAuthn and JWT endpoints require a logged-in user; everything else is
allowed as a pomerium route. -/
def evaluateInternal (_e : Evaluator) (req : Request) :
    Except String PolicyResponse :=
  if (req.http.path = "/.pomerium/webauthn" ∨ req.http.path = "/.pomerium/jwt")
      ∧ req.session.id = "" then
    Except.ok { allow := NewRuleResult false [Reason.userUnauthenticated] }
  else
    Except.ok { allow := NewRuleResult true [Reason.pomeriumRoute] }

/-- Embedding of `evaluatePolicy`: decisions for external routes.  A missing
policy or an unregistered route id is an immediate `RouteNotFound` deny;
otherwise the client certificate is validated and the rule engine registered
for the route is invoked. -/
def evaluatePolicy (c : Capabilities) (e : Evaluator) (req : Request) :
    Except String PolicyResponse :=
  match req.policy with
  | none => Except.ok { deny := NewRuleResult true [Reason.routeNotFound] }
  | some policy =>
    match policy.routeID with
    | Except.error err =>
      Except.error ("authorize: error computing policy route id: " ++ err)
    | Except.ok id =>
      match findPolicyEvaluator e.policyEvaluators id with
      | none => Except.ok { deny := NewRuleResult true [Reason.routeNotFound] }
      | some policyEvaluator =>
        match getClientCA c e (some policy) with
        | Except.error err => Except.error err
        | Except.ok clientCA =>
          match c.isValidClientCertificate clientCA e.clientCRL
              req.http.clientCertificate e.clientCertConstraints with
          | Except.error err =>
            Except.error ("authorize: error validating client certificate: " ++ err)
          | Except.ok valid =>
            policyEvaluator
              { http := req.http, session := req.session
                isValidClientCertificate := valid }

/-- The canonical form of the `X-Pomerium-Jwt-Assertion-For` relay header
(`httputil.HeaderPomeriumJWTAssertionFor`, declared outside src). -/
def headerPomeriumJWTAssertionFor : String := "X-Pomerium-Jwt-Assertion-For"

/-- The canonical form of the `X-Pomerium-Jwt-Assertion` header
(`httputil.HeaderPomeriumJWTAssertion`, declared outside src). -/
def headerPomeriumJWTAssertion : String := "X-Pomerium-Jwt-Assertion"

/-- Lookup in the inbound-header map (Go `src[key]`, returning the value and
a presence flag, embedded as `Option`). -/
def lookupHeader (src : List (String × String)) (k : String) : Option String :=
  (src.find? (fun kv => kv.1 = k)).map (fun kv => kv.2)

/-- The second branch of `carryOverJWTAssertion`: relay a plain assertion
header, when present and non-empty, under the assertion-for key. -/
def carryOverPlainAssertion (dst : Header) (src : List (String × String)) :
    Header :=
  match lookupHeader src headerPomeriumJWTAssertion with
  | some v => if v = "" then dst else dst.add headerPomeriumJWTAssertionFor v
  | none => dst

/-- Embedding of `carryOverJWTAssertion`: copies the assertion JWT from the request headers
to the response headers: the forwarded-assertion header is checked first. -/
def carryOverJWTAssertion (dst : Header) (src : List (String × String)) :
    Header :=
  match lookupHeader src headerPomeriumJWTAssertionFor with
  | some v =>
    if v = "" then carryOverPlainAssertion dst src
    else dst.add headerPomeriumJWTAssertionFor v
  | none => carryOverPlainAssertion dst src

/-- Embedding of `evaluateHeaders`: run the headers evaluator on the request, then apply
the JWT-assertion carry-over pass to its output headers. -/
def evaluateHeaders (e : Evaluator) (req : Request) :
    Except String HeadersResponse :=
  let headersReq :=
    { NewHeadersRequestFromPolicy req.policy req.http with session := req.session }
  match e.headersEvaluator headersReq with
  | Except.error err => Except.error err
  | Except.ok res =>
    Except.ok { res with
      headers := carryOverJWTAssertion res.headers req.http.headers }

/-- The policy unit of `Evaluate`: internal requests short-circuit, external
requests go through `evaluatePolicy`. -/
def policyUnit (c : Capabilities) (e : Evaluator) (req : Request) :
    Except String PolicyResponse :=
  if req.isInternal then evaluateInternal e req else evaluatePolicy c e req

/-- Embedding of `Evaluator.Evaluate`: run the policy unit and the headers unit, join
both; an error from either unit aborts the request, otherwise allow/deny and
traces come from the policy output and headers from the headers output.  The
two units run concurrently in Go via an errgroup; they share no mutable
state, so the join is embedded sequentially. -/
def Evaluator.Evaluate (c : Capabilities) (e : Evaluator) (req : Request) :
    Except String Result :=
  match policyUnit c e req, evaluateHeaders e req with
  | Except.error err, _ => Except.error err
  | Except.ok _, Except.error err => Except.error err
  | Except.ok policyOutput, Except.ok headersOutput =>
    Except.ok
      { allow := policyOutput.allow
        deny := policyOutput.deny
        headers := headersOutput.headers
        traces := policyOutput.traces }

/-- The possible outcomes of one call into the rego engine
(`rego.PreparedEvalQuery.Eval`): a normal result set, an ordinary error, or a
non-local exit (a Go panic) carrying a formatted payload.  The engine itself
is external; the panic payload is embedded already formatted by the `%v`
verb of `fmt`, as the deferred recover in `safeEval` does. -/
inductive EngineOutcome (α : Type) where
  | panicked (msg : String)
  | failed (err : String)
  | succeeded (resultSet : α)
deriving DecidableEq, Repr

/-- Whether an engine outcome is an internal fault (an error or a panic)
rather than a normal result set. -/
def EngineOutcome.isFault {α : Type} : EngineOutcome α → Bool
  | EngineOutcome.panicked _ => true
  | EngineOutcome.failed _ => true
  | EngineOutcome.succeeded _ => false

/-- Embedding of `safeEval`: wraps a call into the rego engine; a panic is recovered and
converted to an error via `fmt.Errorf`, an ordinary error is passed through,
and a normal result set is returned. -/
def safeEval {α : Type} (outcome : EngineOutcome α) : Except String α :=
  match outcome with
  | EngineOutcome.panicked msg => Except.error msg
  | EngineOutcome.failed err => Except.error err
  | EngineOutcome.succeeded resultSet => Except.ok resultSet

/-- A decoded private JWK (`jose.JSONWebKey`); its structure is opaque to
`evaluator.go`. -/
structure JSONWebKey where
  data : String := ""
deriving DecidableEq, Repr

/-- External cryptographic capabilities from `pkg/cryptutil` (defined outside
src): key generation, encoding, and JWK decoding; each may fail. -/
structure SigningCapabilities where
  newSigningKey : Except String String
  encodePrivateKey : String → Except String String
  privateJWKFromBytes : String → Except String JSONWebKey

/-- The fields of `evaluatorConfig` (from `config.go`) consumed by the
store-update path. -/
structure EvaluatorConfig where
  policies : List Policy := []
  signingKey : String := ""
  googleCloudServerlessAuthenticationServiceAccount : String := ""
  jwtClaimsHeaders : List (String × String) := []

/-- The store fields written by `updateStore`
(`authorize/internal/store.Store`, defined outside src). -/
structure Store where
  googleCloudServerlessAuthenticationServiceAccount : String := ""
  jwtClaimHeaders : List (String × String) := []
  routePolicies : List Policy := []
  signingKey : Option JSONWebKey := none

/-- Embedding of `getJWK`: when no signing key bytes are supplied, generate a fresh
signing key and encode it; otherwise use the supplied bytes; then decode the
bytes into a private JWK. -/
def getJWK (sc : SigningCapabilities) (cfg : EvaluatorConfig) :
    Except String JSONWebKey :=
  match
    (if cfg.signingKey.length = 0 then
      match sc.newSigningKey with
      | Except.error err =>
        Except.error ("couldn't generate signing key: " ++ err)
      | Except.ok key =>
        match sc.encodePrivateKey key with
        | Except.error err => Except.error ("bad signing key: " ++ err)
        | Except.ok bs => Except.ok bs
    else
      Except.ok cfg.signingKey) with
  | Except.error err => Except.error err
  | Except.ok decodedCert =>
    match sc.privateJWKFromBytes decodedCert with
    | Except.error err =>
      Except.error ("couldn't generate signing key: " ++ err)
    | Except.ok jwk => Except.ok jwk

/-- Embedding of `updateStore`: decode the signing key first; on failure return the error
without touching the store, otherwise write the service account, claim
headers, route policies and signing key.  The Go method mutates the shared
store; the embedding returns the updated store, so an error leaves the prior
store value untouched. -/
def updateStore (sc : SigningCapabilities) (s : Store) (cfg : EvaluatorConfig) :
    Except String Store :=
  match getJWK sc cfg with
  | Except.error err =>
    Except.error ("authorize: couldn't create signer: " ++ err)
  | Except.ok jwk =>
    Except.ok
      { s with
        googleCloudServerlessAuthenticationServiceAccount :=
          cfg.googleCloudServerlessAuthenticationServiceAccount
        jwtClaimHeaders := cfg.jwtClaimsHeaders
        routePolicies := cfg.policies
        signingKey := some jwk }

/-- Modelled from the spec: one authorization rule of a per-route
`PolicyEvaluator` (the rego rule compilation lives outside src) — a predicate
over the request facts together with the reason code it reports when it
fires. -/
structure Rule where
  pred : PolicyRequest → Bool
  reason : Reason

/-- Modelled from the spec: the synthetic default deny-on-invalid-certificate
rule that may be injected ahead of user-authored deny rules. -/
def defaultClientCertificateRule : Rule :=
  { pred := fun r => !r.isValidClientCertificate
    reason := Reason.invalidClientCertificate }

/-- Modelled from the spec: evaluate a rule set — the verdict is true when
any predicate fires, and the reasons of the fired rules are reported in evaluation
order. -/
def evalRules (rules : List Rule) (req : PolicyRequest) : RuleResult :=
  let fired := rules.filter (fun r => r.pred req)
  NewRuleResult (!fired.isEmpty) (fired.map (fun r => r.reason))

/-- Modelled from the spec: a per-route `PolicyEvaluator` — independent
allow-rule and deny-rule sets, plus the flag controlling injection of the
default client-certificate deny rule. -/
structure SpecPolicyEvaluator where
  addDefaultClientCertificateRule : Bool := false
  denyRules : List Rule := []
  allowRules : List Rule := []

/-- Modelled from the spec: `PolicyEvaluator.Evaluate` — the injected default
deny rule, when enabled, is evaluated before user-authored deny rules; pure
rule evaluation raises no fault. -/
def SpecPolicyEvaluator.evaluate (pe : SpecPolicyEvaluator)
    (req : PolicyRequest) : Except String PolicyResponse :=
  let denyRules :=
    (if pe.addDefaultClientCertificateRule then [defaultClientCertificateRule]
     else []) ++ pe.denyRules
  Except.ok
    { allow := evalRules pe.allowRules req
      deny := evalRules denyRules req }

/-! ## Concrete fixtures used by witness and counterexample theorems -/

/-- A headers evaluator that always produces one fixed header. -/
def sampleHeadersFn : HeadersRequest → Except String HeadersResponse :=
  fun _ => Except.ok { headers := [("X-Sample", "1")] }

/-- Capabilities whose base64 decoding is the identity and whose certificate
validation always reports a valid certificate. -/
def sampleCaps : Capabilities :=
  { base64Decode := fun s => Except.ok s
    isValidClientCertificate := fun _ _ _ _ => Except.ok true }

/-- Capabilities whose certificate validation reports an invalid (but
parsable) certificate. -/
def invalidCertCaps : Capabilities :=
  { base64Decode := fun s => Except.ok s
    isValidClientCertificate := fun _ _ _ _ => Except.ok false }

/-- Capabilities whose certificate validation fails with an error (for
example, unparsable certificate bytes). -/
def errCertCaps : Capabilities :=
  { base64Decode := fun s => Except.ok s
    isValidClientCertificate := fun _ _ _ _ => Except.error "unparsable" }

/-- A rule engine capability that allows everything. -/
def allowAllFn : PolicyEvalFn :=
  fun _ => Except.ok { allow := NewRuleResult true [] }

/-- An evaluator with one registered route (id 1) and the sample headers
evaluator. -/
def sampleEvaluator : Evaluator :=
  { policyEvaluators := [(1, allowAllFn)], headersEvaluator := sampleHeadersFn }

/-- A policy whose route id computes to 7, which is not registered in
`sampleEvaluator`. -/
def unregisteredPolicy : Policy := { routeID := Except.ok 7 }

/-- A policy whose route id computes to 1, which is registered in
`sampleEvaluator`. -/
def registeredPolicy : Policy := { routeID := Except.ok 1 }

/-- A policy whose route id computation fails. -/
def brokenPolicy : Policy := { routeID := Except.error "bad route" }

/-! ## Helper lemmas -/

/-- Replacing every registered rule engine (keeping the registered route ids)
preserves a failed lookup. -/
theorem findPolicyEvaluator_map_eq_none (l : List (Nat × PolicyEvalFn))
    (g : Nat → PolicyEvalFn) (id : Nat)
    (h : findPolicyEvaluator l id = none) :
    findPolicyEvaluator (l.map (fun kv => (kv.1, g kv.1))) id = none := by
  induction l with
  | nil => rfl
  | cons kv tl ih =>
    by_cases hk : kv.1 = id
    · exfalso
      simp [findPolicyEvaluator, List.find?_cons_of_pos, hk] at h
    · simp only [findPolicyEvaluator, List.map_cons] at h ⊢
      rw [List.find?_cons_of_neg _ (by simp [hk])] at h
      rw [List.find?_cons_of_neg _ (by simp [hk])]
      exact ih h

/-! ## Claims -/

/-- C10: for every non-internal request whose policy is present but whose
route-id computation fails, Evaluate returns an error (no Result), not a
Deny(RouteNotFound) decision. -/
theorem evaluate_routeID_failure_returns_error (c : Capabilities)
    (e : Evaluator) (req : Request) (p : Policy) (msg : String)
    (hni : req.isInternal = false) (hp : req.policy = some p)
    (hid : p.routeID = Except.error msg) :
    evaluatePolicy c e req =
      Except.error ("authorize: error computing policy route id: " ++ msg) ∧
    Evaluator.Evaluate c e req =
      Except.error ("authorize: error computing policy route id: " ++ msg) ∧
    ∀ r, Evaluator.Evaluate c e req ≠ Except.ok r := by
  have hpol : evaluatePolicy c e req =
      Except.error ("authorize: error computing policy route id: " ++ msg) := by
    simp [evaluatePolicy, hp, hid]
  refine ⟨hpol, ?_, ?_⟩
  · simp [Evaluator.Evaluate, policyUnit, hni, hpol]
  · intro r
    simp [Evaluator.Evaluate, policyUnit, hni, hpol]

/-- Witness for C10 at a concrete broken policy. -/
theorem evaluate_routeID_failure_returns_error_witness :
    Evaluator.Evaluate sampleCaps sampleEvaluator
        { isInternal := false, policy := some brokenPolicy } =
      Except.error ("authorize: error computing policy route id: bad route") :=
  (evaluate_routeID_failure_returns_error sampleCaps sampleEvaluator
    { isInternal := false, policy := some brokenPolicy } brokenPolicy
    "bad route" rfl rfl rfl).2.1

/-- C1: for every non-internal request whose policy is absent, or whose
route id has no registered PolicyEvaluator, the policy unit returns a result
with Deny = {value: true, reason: RouteNotFound} and Allow unset, any Result
returned by Evaluate carries exactly those Deny and Allow fields, and neither
client-certificate validation nor any registered rule engine influences the
outcome (replacing the validation capability, or every registered rule
engine, changes nothing). -/
theorem evaluate_missing_policy_denies_routeNotFound (c : Capabilities)
    (e : Evaluator) (req : Request) (hni : req.isInternal = false)
    (habs : req.policy = none ∨
      ∃ p id, req.policy = some p ∧ p.routeID = Except.ok id ∧
        findPolicyEvaluator e.policyEvaluators id = none) :
    evaluatePolicy c e req =
      Except.ok { deny := NewRuleResult true [Reason.routeNotFound] } ∧
    (∀ r, Evaluator.Evaluate c e req = Except.ok r →
      r.deny = NewRuleResult true [Reason.routeNotFound] ∧
      r.allow = ({} : RuleResult)) ∧
    (∀ f, Evaluator.Evaluate { c with isValidClientCertificate := f } e req =
      Evaluator.Evaluate c e req) ∧
    (∀ g : Nat → PolicyEvalFn,
      Evaluator.Evaluate c
        { e with policyEvaluators :=
            e.policyEvaluators.map (fun kv => (kv.1, g kv.1)) } req =
      Evaluator.Evaluate c e req) := by
  have hpol : ∀ (c' : Capabilities) (P : List (Nat × PolicyEvalFn)),
      (∀ id, findPolicyEvaluator e.policyEvaluators id = none →
        findPolicyEvaluator P id = none) →
      evaluatePolicy c' { e with policyEvaluators := P } req =
        Except.ok { deny := NewRuleResult true [Reason.routeNotFound] } := by
    intro c' P hP
    rcases habs with hnone | ⟨p, id, hp, hid, hfind⟩
    · simp [evaluatePolicy, hnone]
    · simp [evaluatePolicy, hp, hid, hP id hfind]
  have hpol0 : evaluatePolicy c e req =
      Except.ok { deny := NewRuleResult true [Reason.routeNotFound] } :=
    hpol c e.policyEvaluators (fun _ h => h)
  refine ⟨hpol0, ?_, ?_, ?_⟩
  · intro r hr
    cases hh : evaluateHeaders e req with
    | error err => simp [Evaluator.Evaluate, policyUnit, hni, hpol0, hh] at hr
    | ok ho =>
      simp [Evaluator.Evaluate, policyUnit, hni, hpol0, hh] at hr
      simp [← hr, NewRuleResult]
  · intro f
    have := hpol { c with isValidClientCertificate := f } e.policyEvaluators
      (fun _ h => h)
    simp [Evaluator.Evaluate, policyUnit, hni, hpol0, this]
  · intro g
    have := hpol c (e.policyEvaluators.map (fun kv => (kv.1, g kv.1)))
      (fun id h => findPolicyEvaluator_map_eq_none _ g id h)
    simp [Evaluator.Evaluate, policyUnit, hni, hpol0, this, evaluateHeaders]

/-- Witness for C1: a concrete non-internal request with no policy, and one
whose route id 7 is unregistered, both produce the RouteNotFound deny; the
full Evaluate output is insensitive to a failing certificate validator. -/
theorem evaluate_missing_policy_denies_routeNotFound_witness :
    evaluatePolicy sampleCaps sampleEvaluator { isInternal := false } =
      Except.ok { deny := NewRuleResult true [Reason.routeNotFound] } ∧
    evaluatePolicy sampleCaps sampleEvaluator
        { isInternal := false, policy := some unregisteredPolicy } =
      Except.ok { deny := NewRuleResult true [Reason.routeNotFound] } ∧
    Evaluator.Evaluate
        { sampleCaps with
          isValidClientCertificate := fun _ _ _ _ => Except.error "boom" }
        sampleEvaluator { isInternal := false } =
      Evaluator.Evaluate sampleCaps sampleEvaluator { isInternal := false } :=
  ⟨(evaluate_missing_policy_denies_routeNotFound sampleCaps sampleEvaluator
      { isInternal := false } rfl (Or.inl rfl)).1,
   (evaluate_missing_policy_denies_routeNotFound sampleCaps sampleEvaluator
      { isInternal := false, policy := some unregisteredPolicy } rfl
      (Or.inr ⟨unregisteredPolicy, 7, rfl, rfl, rfl⟩)).1,
   (evaluate_missing_policy_denies_routeNotFound sampleCaps sampleEvaluator
      { isInternal := false } rfl (Or.inl rfl)).2.2.1
     (fun _ _ _ _ => Except.error "boom")⟩

/-- C2: for every internal request, the WebAuthn and JWT endpoints with an
empty session id produce Allow = {value: false, reason: UserUnauthenticated};
every other combination (those two paths with a non-empty session id, and all
other internal paths regardless of session) produces Allow = {value: true,
reason: PomeriumRoute}; any Result returned by Evaluate carries exactly the
policy-unit fields; and no registered rule engine (nor any external
capability) is invoked: the outcome is independent of both. -/
theorem evaluate_internal_requests (c : Capabilities) (e : Evaluator)
    (req : Request) (hint : req.isInternal = true) :
    (((req.http.path = "/.pomerium/webauthn" ∨ req.http.path = "/.pomerium/jwt")
        ∧ req.session.id = "") →
      policyUnit c e req =
        Except.ok { allow := NewRuleResult false [Reason.userUnauthenticated] }) ∧
    (¬ ((req.http.path = "/.pomerium/webauthn" ∨ req.http.path = "/.pomerium/jwt")
        ∧ req.session.id = "") →
      policyUnit c e req =
        Except.ok { allow := NewRuleResult true [Reason.pomeriumRoute] }) ∧
    (∀ r, Evaluator.Evaluate c e req = Except.ok r →
      policyUnit c e req =
        Except.ok { allow := r.allow, deny := r.deny, traces := r.traces }) ∧
    (∀ (c' : Capabilities) (P : List (Nat × PolicyEvalFn)),
      Evaluator.Evaluate c' { e with policyEvaluators := P } req =
        Evaluator.Evaluate c e req) := by
  refine ⟨?_, ?_, ?_, ?_⟩
  · intro h
    simp [policyUnit, hint, evaluateInternal, h]
  · intro h
    simp [policyUnit, hint, evaluateInternal, h]
  · intro r hr
    cases hpol : policyUnit c e req with
    | error err => simp [Evaluator.Evaluate, hpol] at hr
    | ok po =>
      cases hh : evaluateHeaders e req with
      | error err => simp [Evaluator.Evaluate, hpol, hh] at hr
      | ok ho =>
        simp [Evaluator.Evaluate, hpol, hh] at hr
        simp [← hr]
  · intro c' P
    simp [Evaluator.Evaluate, policyUnit, hint, evaluateInternal,
      evaluateHeaders]

/-- Witness for C2 at concrete internal requests: the JWT endpoint with an
empty session is unauthenticated, the same endpoint with a session and an
unrelated dashboard path are both allowed as pomerium routes, and swapping in
an error-raising certificate validator with an empty rule-engine registry
changes nothing. -/
theorem evaluate_internal_requests_witness :
    policyUnit sampleCaps sampleEvaluator
        { isInternal := true, http := { path := "/.pomerium/jwt" } } =
      Except.ok { allow := NewRuleResult false [Reason.userUnauthenticated] } ∧
    policyUnit sampleCaps sampleEvaluator
        { isInternal := true, http := { path := "/.pomerium/jwt" }
          session := { id := "s1" } } =
      Except.ok { allow := NewRuleResult true [Reason.pomeriumRoute] } ∧
    policyUnit sampleCaps sampleEvaluator
        { isInternal := true, http := { path := "/.pomerium/" } } =
      Except.ok { allow := NewRuleResult true [Reason.pomeriumRoute] } ∧
    Evaluator.Evaluate errCertCaps
        { sampleEvaluator with policyEvaluators := [] }
        { isInternal := true, http := { path := "/.pomerium/jwt" } } =
      Evaluator.Evaluate sampleCaps sampleEvaluator
        { isInternal := true, http := { path := "/.pomerium/jwt" } } :=
  ⟨(evaluate_internal_requests sampleCaps sampleEvaluator
      { isInternal := true, http := { path := "/.pomerium/jwt" } } rfl).1
      ⟨Or.inr rfl, rfl⟩,
   (evaluate_internal_requests sampleCaps sampleEvaluator
      { isInternal := true, http := { path := "/.pomerium/jwt" }
        session := { id := "s1" } } rfl).2.1 (by simp),
   (evaluate_internal_requests sampleCaps sampleEvaluator
      { isInternal := true, http := { path := "/.pomerium/" } } rfl).2.1
      (by simp),
   (evaluate_internal_requests sampleCaps sampleEvaluator
      { isInternal := true, http := { path := "/.pomerium/jwt" } } rfl).2.2.2
      errCertCaps []⟩

/-- C3: every internal fault of the rule engine — an ordinary error or a
non-local exit (panic) — is caught by the safeEval boundary and converted
into an error returned to the caller; a panic payload becomes exactly the
formatted error, and a fault never yields a successful result set (so it can
never be treated as an Allow decision). -/
theorem safeEval_converts_engine_faults {α : Type} (o : EngineOutcome α)
    (hf : o.isFault = true) :
    (∃ msg, safeEval o = Except.error msg) ∧
    (∀ m, o = EngineOutcome.panicked m → safeEval o = Except.error m) ∧
    (∀ rs, safeEval o ≠ Except.ok rs) := by
  cases o with
  | panicked msg =>
    refine ⟨⟨msg, rfl⟩, ?_, ?_⟩
    · intro m hm
      cases hm
      rfl
    · intro rs h
      simp [safeEval] at h
  | failed err =>
    refine ⟨⟨err, rfl⟩, ?_, ?_⟩
    · intro m hm
      cases hm
    · intro rs h
      simp [safeEval] at h
  | succeeded rs => simp [EngineOutcome.isFault] at hf

/-- Witness for C3: a concrete engine panic is converted to the formatted
error and is not a result set. -/
theorem safeEval_converts_engine_faults_witness :
    safeEval (EngineOutcome.panicked "rego runtime fault" : EngineOutcome Nat) =
      Except.error "rego runtime fault" ∧
    safeEval (EngineOutcome.panicked "rego runtime fault" : EngineOutcome Nat) ≠
      Except.ok 0 :=
  ⟨(safeEval_converts_engine_faults
      (EngineOutcome.panicked "rego runtime fault" : EngineOutcome Nat)
      rfl).2.1 "rego runtime fault" rfl,
   (safeEval_converts_engine_faults
      (EngineOutcome.panicked "rego runtime fault" : EngineOutcome Nat)
      rfl).2.2 0⟩

/-- A concrete spec-modelled policy evaluator with the default
client-certificate deny rule enabled. -/
def specPE : SpecPolicyEvaluator := { addDefaultClientCertificateRule := true }

/-- An evaluator whose route 1 is served by the spec-modelled policy
evaluator. -/
def specEvaluator : Evaluator :=
  { policyEvaluators := [(1, specPE.evaluate)]
    headersEvaluator := sampleHeadersFn }

/-- C4: for a non-internal request with a registered policy, an error from
client-certificate validation aborts the whole request with that (wrapped)
error, while an ordinary boolean verdict is passed to the PolicyEvaluator as
the isValidClientCertificate fact; in particular a false verdict reaches the
rule engine as a fact rather than an error, and under the spec-modelled rule
semantics with the default certificate rule enabled it yields a Deny
decision, never an error. -/
theorem evaluate_cert_error_aborts_but_invalid_is_fact (c : Capabilities)
    (e : Evaluator) (req : Request) (p : Policy) (id : Nat)
    (pe : PolicyEvalFn) (ca : String)
    (hni : req.isInternal = false) (hp : req.policy = some p)
    (hid : p.routeID = Except.ok id)
    (hfind : findPolicyEvaluator e.policyEvaluators id = some pe)
    (hca : getClientCA c e (some p) = Except.ok ca) :
    (∀ msg,
      c.isValidClientCertificate ca e.clientCRL req.http.clientCertificate
          e.clientCertConstraints = Except.error msg →
      evaluatePolicy c e req =
        Except.error ("authorize: error validating client certificate: " ++ msg) ∧
      Evaluator.Evaluate c e req =
        Except.error ("authorize: error validating client certificate: " ++ msg)) ∧
    (∀ b,
      c.isValidClientCertificate ca e.clientCRL req.http.clientCertificate
          e.clientCertConstraints = Except.ok b →
      evaluatePolicy c e req =
        pe { http := req.http, session := req.session
             isValidClientCertificate := b }) ∧
    (∀ spe : SpecPolicyEvaluator, pe = spe.evaluate →
      spe.addDefaultClientCertificateRule = true →
      c.isValidClientCertificate ca e.clientCRL req.http.clientCertificate
          e.clientCertConstraints = Except.ok false →
      ∃ resp, evaluatePolicy c e req = Except.ok resp ∧
        resp.deny.value = true) := by
  refine ⟨?_, ?_, ?_⟩
  · intro msg hcert
    have hpol : evaluatePolicy c e req =
        Except.error ("authorize: error validating client certificate: " ++ msg) := by
      simp [evaluatePolicy, hp, hid, hfind, hca, hcert]
    exact ⟨hpol, by simp [Evaluator.Evaluate, policyUnit, hni, hpol]⟩
  · intro b hcert
    simp [evaluatePolicy, hp, hid, hfind, hca, hcert]
  · intro spe hpe hflag hcert
    have hpol : evaluatePolicy c e req =
        spe.evaluate { http := req.http, session := req.session
                       isValidClientCertificate := false } := by
      simp [evaluatePolicy, hp, hid, hfind, hca, hcert, hpe]
    refine ⟨_, hpol.trans rfl, ?_⟩
    simp [SpecPolicyEvaluator.evaluate, hflag, evalRules,
      defaultClientCertificateRule, NewRuleResult]

/-- Witness for C4: with the spec-modelled route, unparsable certificate
bytes abort the concrete request with the wrapped error, while a boolean
invalid verdict produces an ordinary Deny decision with the
InvalidClientCertificate reason. -/
theorem evaluate_cert_error_aborts_but_invalid_is_fact_witness :
    Evaluator.Evaluate errCertCaps specEvaluator
        { isInternal := false, policy := some registeredPolicy } =
      Except.error "authorize: error validating client certificate: unparsable" ∧
    evaluatePolicy invalidCertCaps specEvaluator
        { isInternal := false, policy := some registeredPolicy } =
      Except.ok { deny := NewRuleResult true [Reason.invalidClientCertificate] } :=
  ⟨((evaluate_cert_error_aborts_but_invalid_is_fact errCertCaps specEvaluator
      { isInternal := false, policy := some registeredPolicy }
      registeredPolicy 1 specPE.evaluate "" rfl rfl rfl rfl rfl).1
      "unparsable" rfl).2,
   ((evaluate_cert_error_aborts_but_invalid_is_fact invalidCertCaps
      specEvaluator { isInternal := false, policy := some registeredPolicy }
      registeredPolicy 1 specPE.evaluate "" rfl rfl rfl rfl rfl).2.1
      false rfl).trans rfl⟩

/-- A concrete evaluation trace produced by a rule engine. -/
def sampleTrace : PolicyEvaluationTrace := { id := "allow-rule-1" }

/-- A rule engine capability that allows and reports one trace record. -/
def tracedEvalFn : PolicyEvalFn :=
  fun _ => Except.ok { allow := NewRuleResult true [], traces := [sampleTrace] }

/-- An evaluator whose route 1 engine reports a trace; its headers evaluator
is exactly the sample one. -/
def tracedEvaluator : Evaluator :=
  { policyEvaluators := [(1, tracedEvalFn)], headersEvaluator := sampleHeadersFn }

/-- Counterexample to C5: two runs that use the identical headers evaluator
(and obtain identical headers-unit outputs) return Results with different
Traces, so the Traces field does not come from the headers-unit output; it is
copied from the policy-unit output (here, the trace reported by the route-1
rule engine). -/
theorem evaluate_traces_counterexample :
    tracedEvaluator.headersEvaluator = sampleEvaluator.headersEvaluator ∧
    evaluateHeaders tracedEvaluator
        { isInternal := false, policy := some registeredPolicy } =
      evaluateHeaders sampleEvaluator
        { isInternal := false, policy := some registeredPolicy } ∧
    (Evaluator.Evaluate sampleCaps tracedEvaluator
        { isInternal := false, policy := some registeredPolicy }).map
        Result.traces = Except.ok [sampleTrace] ∧
    (Evaluator.Evaluate sampleCaps sampleEvaluator
        { isInternal := false, policy := some registeredPolicy }).map
        Result.traces = Except.ok [] :=
  ⟨rfl, rfl, rfl, rfl⟩

/-- C5 (amended): for every request, Evaluate runs the policy unit and the
headers unit and joins both: it returns an error if either unit fails (the
policy-unit error, or, when only the headers unit fails, that error) and no
Result in that case; otherwise it returns a Result whose Allow, Deny and
Traces fields come from the policy-unit output and whose Headers field comes
from the headers-unit output. -/
theorem evaluate_joins_policy_and_headers_units (c : Capabilities)
    (e : Evaluator) (req : Request) :
    (∀ err, policyUnit c e req = Except.error err →
      Evaluator.Evaluate c e req = Except.error err) ∧
    (∀ po err, policyUnit c e req = Except.ok po →
      evaluateHeaders e req = Except.error err →
      Evaluator.Evaluate c e req = Except.error err) ∧
    (∀ po ho, policyUnit c e req = Except.ok po →
      evaluateHeaders e req = Except.ok ho →
      Evaluator.Evaluate c e req =
        Except.ok { allow := po.allow, deny := po.deny
                    headers := ho.headers, traces := po.traces }) := by
  refine ⟨?_, ?_, ?_⟩
  · intro err hpol
    simp [Evaluator.Evaluate, hpol]
  · intro po err hpol hh
    simp [Evaluator.Evaluate, hpol, hh]
  · intro po ho hpol hh
    simp [Evaluator.Evaluate, hpol, hh]

/-- Witness for C5 (amended): on a concrete request the merged Result takes
allow and traces from the policy unit and headers from the headers unit, and
a failing headers unit aborts the request with its error. -/
theorem evaluate_joins_policy_and_headers_units_witness :
    Evaluator.Evaluate sampleCaps tracedEvaluator
        { isInternal := false, policy := some registeredPolicy } =
      Except.ok { allow := NewRuleResult true []
                  headers := [("X-Sample", "1")], traces := [sampleTrace] } ∧
    Evaluator.Evaluate sampleCaps
        { tracedEvaluator with
          headersEvaluator := fun _ => Except.error "headers failed" }
        { isInternal := false, policy := some registeredPolicy } =
      Except.error "headers failed" :=
  ⟨(evaluate_joins_policy_and_headers_units sampleCaps tracedEvaluator
      { isInternal := false, policy := some registeredPolicy }).2.2
      { allow := NewRuleResult true [], traces := [sampleTrace] }
      { headers := [("X-Sample", "1")] } rfl rfl,
   (evaluate_joins_policy_and_headers_units sampleCaps
      { tracedEvaluator with
        headersEvaluator := fun _ => Except.error "headers failed" }
      { isInternal := false, policy := some registeredPolicy }).2.1
      { allow := NewRuleResult true [], traces := [sampleTrace] }
      "headers failed" rfl rfl⟩

/-- C6: after the headers evaluation produces its output headers, the
carry-over pass copies an inbound forwarded-assertion header with a non-empty
value verbatim to the outbound assertion-for header (and the plain assertion
header is then not consulted: the outcome is fixed by that value alone);
otherwise a non-empty plain assertion header value is copied to the outbound
assertion-for header; when neither is present with a non-empty value the
headers are unchanged; and evaluateHeaders applies exactly this pass to the
headers-evaluator output. -/
theorem carry_over_jwt_assertion_cases (dst : Header)
    (src : List (String × String)) (e : Evaluator) (req : Request) :
    (∀ v, lookupHeader src headerPomeriumJWTAssertionFor = some v → v ≠ "" →
      carryOverJWTAssertion dst src =
        dst.add headerPomeriumJWTAssertionFor v) ∧
    ((lookupHeader src headerPomeriumJWTAssertionFor = none ∨
      lookupHeader src headerPomeriumJWTAssertionFor = some "") →
      ∀ v, lookupHeader src headerPomeriumJWTAssertion = some v → v ≠ "" →
        carryOverJWTAssertion dst src =
          dst.add headerPomeriumJWTAssertionFor v) ∧
    ((lookupHeader src headerPomeriumJWTAssertionFor = none ∨
      lookupHeader src headerPomeriumJWTAssertionFor = some "") →
      (lookupHeader src headerPomeriumJWTAssertion = none ∨
       lookupHeader src headerPomeriumJWTAssertion = some "") →
      carryOverJWTAssertion dst src = dst) ∧
    (∀ res, e.headersEvaluator
        { NewHeadersRequestFromPolicy req.policy req.http with
          session := req.session } = Except.ok res →
      evaluateHeaders e req =
        Except.ok { res with
          headers := carryOverJWTAssertion res.headers req.http.headers }) := by
  refine ⟨?_, ?_, ?_, ?_⟩
  · intro v hv hne
    simp [carryOverJWTAssertion, hv, hne]
  · intro hfor v hv hne
    rcases hfor with hfor | hfor
    · simp [carryOverJWTAssertion, hfor, carryOverPlainAssertion, hv, hne]
    · simp [carryOverJWTAssertion, hfor, carryOverPlainAssertion, hv, hne]
  · intro hfor ha
    rcases hfor with hfor | hfor <;> rcases ha with ha | ha <;>
      simp [carryOverJWTAssertion, hfor, carryOverPlainAssertion, ha]
  · intro res hres
    simp [evaluateHeaders, hres]

/-- Witness for C6 at concrete header maps: an inbound assertion-for value A
wins over a plain assertion value B, a plain assertion value B alone is
relayed under the assertion-for key, empty values trigger no carry-over, and
a concrete evaluateHeaders run applies the pass to the produced headers. -/
theorem carry_over_jwt_assertion_cases_witness :
    carryOverJWTAssertion [("H", "x")]
        [("X-Pomerium-Jwt-Assertion-For", "A"), ("X-Pomerium-Jwt-Assertion", "B")] =
      [("H", "x"), ("X-Pomerium-Jwt-Assertion-For", "A")] ∧
    carryOverJWTAssertion [("H", "x")] [("X-Pomerium-Jwt-Assertion", "B")] =
      [("H", "x"), ("X-Pomerium-Jwt-Assertion-For", "B")] ∧
    carryOverJWTAssertion [("H", "x")]
        [("X-Pomerium-Jwt-Assertion-For", ""), ("X-Pomerium-Jwt-Assertion", "")] =
      [("H", "x")] ∧
    evaluateHeaders sampleEvaluator
        { http := { headers := [("X-Pomerium-Jwt-Assertion", "B")] } } =
      Except.ok { headers :=
        [("X-Sample", "1"), ("X-Pomerium-Jwt-Assertion-For", "B")] } :=
  ⟨(carry_over_jwt_assertion_cases [("H", "x")]
      [("X-Pomerium-Jwt-Assertion-For", "A"), ("X-Pomerium-Jwt-Assertion", "B")]
      sampleEvaluator {}).1 "A" rfl (by decide),
   (carry_over_jwt_assertion_cases [("H", "x")]
      [("X-Pomerium-Jwt-Assertion", "B")] sampleEvaluator {}).2.1
      (Or.inl rfl) "B" rfl (by decide),
   (carry_over_jwt_assertion_cases [("H", "x")]
      [("X-Pomerium-Jwt-Assertion-For", ""), ("X-Pomerium-Jwt-Assertion", "")]
      sampleEvaluator {}).2.2.1 (Or.inr rfl) (Or.inr rfl),
   (carry_over_jwt_assertion_cases [] [] sampleEvaluator
      { http := { headers := [("X-Pomerium-Jwt-Assertion", "B")] } }).2.2.2
      { headers := [("X-Sample", "1")] } rfl⟩

/-- C8: for a non-internal request with a registered policy, the effective
client CA handed to certificate validation is the base64-decoded
route-specific override when that field is non-empty, and the global default
client CA otherwise; evaluatePolicy feeds exactly the resolved CA into the
validation capability and passes the resulting boolean to the rule engine. -/
theorem client_ca_resolution (c : Capabilities) (e : Evaluator)
    (req : Request) (p : Policy) (id : Nat) (pe : PolicyEvalFn)
    (_hni : req.isInternal = false) (hp : req.policy = some p)
    (hid : p.routeID = Except.ok id)
    (hfind : findPolicyEvaluator e.policyEvaluators id = some pe) :
    (p.tlsDownstreamClientCA ≠ "" →
      getClientCA c e (some p) = c.base64Decode p.tlsDownstreamClientCA) ∧
    (p.tlsDownstreamClientCA = "" →
      getClientCA c e (some p) = Except.ok e.clientCA) ∧
    (getClientCA c e none = Except.ok e.clientCA) ∧
    (∀ ca b, getClientCA c e (some p) = Except.ok ca →
      c.isValidClientCertificate ca e.clientCRL req.http.clientCertificate
          e.clientCertConstraints = Except.ok b →
      evaluatePolicy c e req =
        pe { http := req.http, session := req.session
             isValidClientCertificate := b }) := by
  refine ⟨?_, ?_, rfl, ?_⟩
  · intro h
    simp [getClientCA, h]
  · intro h
    simp [getClientCA, h]
  · intro ca b hca hcert
    simp [evaluatePolicy, hp, hid, hfind, hca, hcert]

/-- Witness for C8: a route with the override "Q0E=" resolves through base64
decoding, a route without an override resolves to the global CA, and the
resolved CA feeds a concrete validation verdict to the rule engine. -/
theorem client_ca_resolution_witness :
    getClientCA sampleCaps
        { sampleEvaluator with clientCA := "GLOBAL" }
        (some { tlsDownstreamClientCA := "Q0E=", routeID := Except.ok 1 }) =
      Except.ok "Q0E=" ∧
    getClientCA sampleCaps { sampleEvaluator with clientCA := "GLOBAL" }
        (some registeredPolicy) =
      Except.ok "GLOBAL" ∧
    evaluatePolicy sampleCaps sampleEvaluator
        { isInternal := false, policy := some registeredPolicy } =
      Except.ok { allow := NewRuleResult true [] } :=
  ⟨(client_ca_resolution sampleCaps
      { sampleEvaluator with clientCA := "GLOBAL" }
      { isInternal := false
        policy := some { tlsDownstreamClientCA := "Q0E=", routeID := Except.ok 1 } }
      { tlsDownstreamClientCA := "Q0E=", routeID := Except.ok 1 } 1
      allowAllFn rfl rfl rfl rfl).1 (by decide),
   (client_ca_resolution sampleCaps
      { sampleEvaluator with clientCA := "GLOBAL" }
      { isInternal := false, policy := some registeredPolicy }
      registeredPolicy 1 allowAllFn rfl rfl rfl rfl).2.1 rfl,
   ((client_ca_resolution sampleCaps sampleEvaluator
      { isInternal := false, policy := some registeredPolicy }
      registeredPolicy 1 allowAllFn rfl rfl rfl rfl).2.2.2 "" true
      rfl rfl).trans rfl⟩

/-- An empty string has length zero and conversely. -/
theorem string_ne_empty_length_ne_zero (s : String) (h : s ≠ "") :
    s.length ≠ 0 := by
  intro h0
  apply h
  cases s with
  | mk l =>
    simp [String.length] at h0
    simp [h0]

/-- C7: at evaluator construction, empty signing-key bytes cause a fresh
signing key to be generated, encoded, and decoded into the JWK (a generation
failure propagates as an error); supplied signing-key bytes are decoded
directly; and when the key material cannot be decoded into a private JWK,
updateStore fails with the wrapped error and performs none of the store
updates, so the prior store state stays live. -/
theorem signing_key_construction (sc : SigningCapabilities)
    (cfg : EvaluatorConfig) (s : Store) :
    (cfg.signingKey = "" → ∀ key bs jwk,
      sc.newSigningKey = Except.ok key →
      sc.encodePrivateKey key = Except.ok bs →
      sc.privateJWKFromBytes bs = Except.ok jwk →
      getJWK sc cfg = Except.ok jwk) ∧
    (cfg.signingKey = "" → ∀ m, sc.newSigningKey = Except.error m →
      getJWK sc cfg = Except.error ("couldn't generate signing key: " ++ m)) ∧
    (cfg.signingKey ≠ "" → ∀ jwk,
      sc.privateJWKFromBytes cfg.signingKey = Except.ok jwk →
      getJWK sc cfg = Except.ok jwk) ∧
    (cfg.signingKey ≠ "" → ∀ m,
      sc.privateJWKFromBytes cfg.signingKey = Except.error m →
      getJWK sc cfg = Except.error ("couldn't generate signing key: " ++ m)) ∧
    (∀ m, getJWK sc cfg = Except.error m →
      updateStore sc s cfg =
        Except.error ("authorize: couldn't create signer: " ++ m)) := by
  refine ⟨?_, ?_, ?_, ?_, ?_⟩
  · intro hempty key bs jwk hgen henc hparse
    simp [getJWK, hempty, hgen, henc, hparse]
  · intro hempty m hgen
    simp [getJWK, hempty, hgen]
  · intro hne jwk hparse
    simp [getJWK, string_ne_empty_length_ne_zero cfg.signingKey hne, hparse]
  · intro hne m hparse
    simp [getJWK, string_ne_empty_length_ne_zero cfg.signingKey hne, hparse]
  · intro m hjwk
    simp [updateStore, hjwk]

/-- Concrete signing capabilities for the C7 witness: generation yields a
fixed key, encoding tags it, and only the tagged generated bytes decode into
a JWK. -/
def sampleSigningCaps : SigningCapabilities :=
  { newSigningKey := Except.ok "K"
    encodePrivateKey := fun k => Except.ok ("enc:" ++ k)
    privateJWKFromBytes := fun bs =>
      if bs = "enc:K" then Except.ok { data := "jwk" }
      else Except.error "x509: malformed" }

/-- Witness for C7: with the concrete capabilities, an empty configured key
generates and decodes the fresh key, while a supplied malformed key makes
updateStore fail with the wrapped decode error and produce no store. -/
theorem signing_key_construction_witness :
    getJWK sampleSigningCaps { signingKey := "" } =
      Except.ok { data := "jwk" } ∧
    updateStore sampleSigningCaps { signingKey := none }
        { signingKey := "garbage" } =
      Except.error
        "authorize: couldn't create signer: couldn't generate signing key: x509: malformed" :=
  ⟨(signing_key_construction sampleSigningCaps { signingKey := "" }
      { signingKey := none }).1 rfl "K" "enc:K" { data := "jwk" } rfl rfl rfl,
   (signing_key_construction sampleSigningCaps { signingKey := "garbage" }
      { signingKey := none }).2.2.2.2
      "couldn't generate signing key: x509: malformed"
      ((signing_key_construction sampleSigningCaps { signingKey := "garbage" }
        { signingKey := none }).2.2.2.1 (by decide) "x509: malformed" rfl)⟩

/-- C9: for every request, the headers unit always participates: a failing
headers unit forces Evaluate to return an error, every successful Result
takes its Headers from the headers-unit output, and in particular a
Deny(RouteNotFound) result for a request without a policy still carries the
headers produced by the headers unit. -/
theorem headers_unit_always_runs (c : Capabilities) (e : Evaluator)
    (req : Request) :
    (∀ err po, evaluateHeaders e req = Except.error err →
      policyUnit c e req = Except.ok po →
      Evaluator.Evaluate c e req = Except.error err) ∧
    (∀ err, evaluateHeaders e req = Except.error err →
      ∀ r, Evaluator.Evaluate c e req ≠ Except.ok r) ∧
    (∀ r, Evaluator.Evaluate c e req = Except.ok r →
      ∃ h, evaluateHeaders e req = Except.ok h ∧ r.headers = h.headers) ∧
    (req.isInternal = false → req.policy = none →
      ∀ h, evaluateHeaders e req = Except.ok h →
      Evaluator.Evaluate c e req =
        Except.ok { deny := NewRuleResult true [Reason.routeNotFound]
                    headers := h.headers }) := by
  refine ⟨?_, ?_, ?_, ?_⟩
  · intro err po hh hpol
    simp [Evaluator.Evaluate, hh, hpol]
  · intro err hh r
    cases hpol : policyUnit c e req with
    | error e' => simp [Evaluator.Evaluate, hpol]
    | ok po => simp [Evaluator.Evaluate, hpol, hh]
  · intro r hr
    cases hpol : policyUnit c e req with
    | error e' => simp [Evaluator.Evaluate, hpol] at hr
    | ok po =>
      cases hh : evaluateHeaders e req with
      | error err => simp [Evaluator.Evaluate, hpol, hh] at hr
      | ok ho =>
        refine ⟨ho, rfl, ?_⟩
        simp [Evaluator.Evaluate, hpol, hh] at hr
        simp [← hr]
  · intro hni hnopol h hh
    have hpol : policyUnit c e req =
        Except.ok { deny := NewRuleResult true [Reason.routeNotFound] } := by
      simp [policyUnit, hni, evaluatePolicy, hnopol]
    simp [Evaluator.Evaluate, hpol, hh]

/-- Witness for C9: a concrete request with no policy yields the
RouteNotFound deny together with the identity header produced by the headers
unit, and a failing headers unit turns the same request into an error. -/
theorem headers_unit_always_runs_witness :
    Evaluator.Evaluate sampleCaps sampleEvaluator { isInternal := false } =
      Except.ok { deny := NewRuleResult true [Reason.routeNotFound]
                  headers := [("X-Sample", "1")] } ∧
    Evaluator.Evaluate sampleCaps
        { sampleEvaluator with
          headersEvaluator := fun _ => Except.error "signing failed" }
        { isInternal := false } ≠
      Except.ok { deny := NewRuleResult true [Reason.routeNotFound] } :=
  ⟨(headers_unit_always_runs sampleCaps sampleEvaluator
      { isInternal := false }).2.2.2 rfl rfl
      { headers := [("X-Sample", "1")] } rfl,
   (headers_unit_always_runs sampleCaps
      { sampleEvaluator with
        headersEvaluator := fun _ => Except.error "signing failed" }
      { isInternal := false }).2.1 "signing failed" rfl
      { deny := NewRuleResult true [Reason.routeNotFound] }⟩

end Pomerium
